import Mathlib

/-!
# gdmc (go-daily-message-creator): a shallow embedding and its properties

The development embeds the command layer (`cmd/config.go`, `cmd/generate.go`), the configuration
store (`internal/config/config.go`), the commit fetcher (`internal/git/commits.go`) and the Gemini
client (`internal/gemini/client.go`).

Conventions of the embedding.

* A Go `string` is a sequence of bytes (`GoString`); `len`, slicing and `+` act on bytes.
  String constants of the source are written `go "..."`, the UTF-8 encoding of the text.
* A Go `map[string]T` is an association list read with `List.lookup`.  Go leaves the iteration
  order of a map unspecified; the model iterates in list order, and no theorem depends on it.
* A Go `error` is its message text; `(T, error)` results are `Except GoString T`, and a plain
  `error` result is `Option GoString` (`none` is `nil`).
* The outside world is explicit.  `World` holds the answers of the collaborators (file system
  calls, environment, the git subprocess, the template engine, the HTTP endpoint, the JSON decoder);
  `Sys` holds the configuration file and the ordered trace of observable effects.  Every effectful
  function takes a `Sys` and returns the new one.
* The configuration file is modelled by the `Config` value it decodes to.  What a file decodes
  to after `Config.Save` has written the encoding of `c` is the answer `jsonReadBack c` of the
  package `encoding/json`; it need not be `c` (the encoder writes U+FFFD for every byte of a string
  that is not part of a valid UTF-8 encoding).
-/

namespace Gdmc

/-! ## Strings -/

/-- A Go string: an immutable sequence of bytes. -/
abbrev GoString := List UInt8

/-- UTF-8 encoding of one Unicode scalar value. -/
def utf8EncodeRune (c : Char) : List UInt8 :=
  let n := c.toNat
  if n < 0x80 then [UInt8.ofNat n]
  else if n < 0x800 then [UInt8.ofNat (0xC0 + n / 64), UInt8.ofNat (0x80 + n % 64)]
  else if n < 0x10000 then
    [UInt8.ofNat (0xE0 + n / 4096), UInt8.ofNat (0x80 + n / 64 % 64), UInt8.ofNat (0x80 + n % 64)]
  else
    [UInt8.ofNat (0xF0 + n / 262144), UInt8.ofNat (0x80 + n / 4096 % 64),
      UInt8.ofNat (0x80 + n / 64 % 64), UInt8.ofNat (0x80 + n % 64)]

/-- The Go string denoted by a source literal: the UTF-8 bytes of the text. -/
def go (s : String) : GoString := s.data.flatMap utf8EncodeRune

/-- The verb `%d` of `fmt` on a non-negative integer: its decimal digits. -/
def fmtNat (n : Nat) : GoString := (Nat.toDigits 10 n).map (fun c => UInt8.ofNat c.toNat)

/-- The verb `%d` of `fmt` on an `int`. -/
def fmtInt : Int → GoString
  | Int.ofNat n => fmtNat n
  | Int.negSucc n => go "-" ++ fmtNat (n + 1)

/-- The verb `%v` of `fmt` on a `[]string`: the elements between brackets, separated by blanks. -/
def fmtStrings (xs : List GoString) : GoString :=
  go "[" ++ (xs.intersperse (go " ")).flatten ++ go "]"

/-- The call `strings.Join(elems, sep)`. -/
def stringsJoin (elems : List GoString) (sep : GoString) : GoString :=
  (elems.intersperse sep).flatten

/-- The call `strings.Repeat(s, count)`. -/
def stringsRepeat (s : GoString) (count : Nat) : GoString :=
  (List.replicate count s).flatten

/-- The call `strings.HasPrefix(s, p)`. -/
def stringsHasPrefix (s p : GoString) : Bool := p.isPrefixOf s

/-- The call `strings.Split(s, sep)` for a one-byte separator: the pieces of `s` between the
occurrences of `sep`; a string without the separator is returned as the only piece. -/
def stringsSplit (s : GoString) (sep : UInt8) : List GoString :=
  match s with
  | [] => [[]]
  | c :: cs =>
    if c = sep then [] :: stringsSplit cs sep
    else
      match stringsSplit cs sep with
      | [] => [[c]]
      | piece :: pieces => (c :: piece) :: pieces

/-- UTF-8 encodings of the code points for which `unicode.IsSpace` holds:
`\t \n \v \f \r`, space, U+0085, U+00A0, U+1680, U+2000..U+200A, U+2028, U+2029, U+202F, U+205F,
U+3000. Go decodes only shortest-form encodings, so a decoded rune is a space exactly when the
bytes read are one of these sequences. -/
def spaceEncodings : List GoString :=
  [[0x09], [0x0A], [0x0B], [0x0C], [0x0D], [0x20],
   [0xC2, 0x85], [0xC2, 0xA0], [0xE1, 0x9A, 0x80],
   [0xE2, 0x80, 0x80], [0xE2, 0x80, 0x81], [0xE2, 0x80, 0x82], [0xE2, 0x80, 0x83],
   [0xE2, 0x80, 0x84], [0xE2, 0x80, 0x85], [0xE2, 0x80, 0x86], [0xE2, 0x80, 0x87],
   [0xE2, 0x80, 0x88], [0xE2, 0x80, 0x89], [0xE2, 0x80, 0x8A],
   [0xE2, 0x80, 0xA8], [0xE2, 0x80, 0xA9], [0xE2, 0x80, 0xAF], [0xE2, 0x81, 0x9F],
   [0xE3, 0x80, 0x80]]

/-- The rest of `s` after its first rune when that rune is white space. -/
def dropSpaceRune (s : GoString) : Option GoString :=
  (spaceEncodings.find? (fun e => e.isPrefixOf s)).map (fun e => s.drop e.length)

/-- The start of `s` before its last rune when that rune is white space. -/
def dropLastSpaceRune (s : GoString) : Option GoString :=
  (spaceEncodings.find? (fun e => e.isSuffixOf s)).map (fun e => s.take (s.length - e.length))

/-- Removal of leading white space, one rune per unit of fuel. -/
def trimLeftSpace : Nat → GoString → GoString
  | 0, s => s
  | fuel + 1, s =>
    match dropSpaceRune s with
    | some rest => trimLeftSpace fuel rest
    | none => s

/-- Removal of trailing white space, one rune per unit of fuel. -/
def trimRightSpace : Nat → GoString → GoString
  | 0, s => s
  | fuel + 1, s =>
    match dropLastSpaceRune s with
    | some rest => trimRightSpace fuel rest
    | none => s

/-- The call `strings.TrimSpace(s)`: `s` without its leading and trailing white space, as defined
by Unicode.  A rune has at least one byte, so `len(s)` units of fuel exhaust the string. -/
def stringsTrimSpace (s : GoString) : GoString :=
  let t := trimLeftSpace s.length s
  trimRightSpace t.length t

/-! ## Data model (`internal/config/config.go`, `internal/gemini/client.go`) -/

structure Interval where
  Since : GoString
  Until : GoString
  Name : GoString
  deriving DecidableEq, Repr

structure Template where
  Name : GoString
  Prompt : GoString
  Description : GoString
  deriving DecidableEq, Repr

structure GitSettings where
  IncludeMerges : Bool
  Branches : List GoString
  ExcludePaths : List GoString
  deriving DecidableEq, Repr

structure Config where
  Author : GoString
  APIKey : GoString
  DefaultType : GoString
  Intervals : List (GoString × Interval)
  Templates : List (GoString × Template)
  GitSettings : GitSettings
  deriving DecidableEq, Repr

structure TemplateData where
  Commits : GoString
  Interval : GoString
  Author : GoString
  deriving DecidableEq, Repr

structure Part where
  Text : GoString
  deriving DecidableEq, Repr

structure Content where
  Parts : List Part
  deriving DecidableEq, Repr

/-- The two `float64` fields hold the decimal constants of the source as rationals. -/
structure GenerationConfig where
  Temperature : Rat
  TopK : Int
  TopP : Rat
  MaxOutputTokens : Int
  deriving DecidableEq, Repr

structure SafetySetting where
  Category : GoString
  Threshold : GoString
  deriving DecidableEq, Repr

structure GeminiRequest where
  Contents : List Content
  GenerationConfig : GenerationConfig
  SafetySettings : List SafetySetting
  deriving DecidableEq, Repr

structure PartResponse where
  Text : GoString
  deriving DecidableEq, Repr

structure ContentResponse where
  Parts : List PartResponse
  deriving DecidableEq, Repr

structure Candidate where
  Content : ContentResponse
  deriving DecidableEq, Repr

structure GeminiResponse where
  Candidates : List Candidate
  deriving DecidableEq, Repr

/-! ## The outside world -/

/-- What `config.json` holds: nothing (`os.Stat` reports that it does not exist), something that
`os.ReadFile` cannot read, bytes that `json.Unmarshal` rejects, or the encoding of a `Config`. -/
inductive ConfigFile where
  | absent
  | unreadable (err : GoString)
  | malformed (err : GoString)
  | stored (c : Config)
  deriving DecidableEq, Repr

/-- Outcome of the HTTP round trip of `callAPI`: `http.NewRequest` rejects the URL (nothing is
sent), `client.Do` fails, `io.ReadAll` fails on the body of a response, or a response arrives
with a status code and a body. -/
inductive HttpOutcome where
  | requestError (err : GoString)
  | transportError (err : GoString)
  | readError (status : Int) (err : GoString)
  | response (status : Int) (body : GoString)
  deriving DecidableEq, Repr

/-- An observable effect. Reads of the configuration file and of the environment are not
recorded. `writeFile c` is the call of `os.WriteFile` on the configuration file with the JSON
encoding of `c`. -/
inductive Event where
  | mkdirAll
  | writeFile (c : Config)
  | stat (path : GoString)
  | exec (argv : List GoString)
  | httpPost (url : GoString) (req : GeminiRequest)
  | stdout (text : GoString)
  deriving DecidableEq, Repr

/-- The answers of the collaborators during one run. -/
structure World where
  /-- `os.Getenv("GEMINI_API_KEY")`, empty when the variable is unset. -/
  envGeminiApiKey : GoString
  /-- The error of `os.MkdirAll` on the configuration directory, if any. -/
  mkdirErr : Option GoString
  /-- The error of `os.WriteFile` on the configuration file, if any. -/
  writeErr : Option GoString
  /-- Whether `os.Stat(".git")` succeeds. -/
  statDotGit : Bool
  /-- Whether `git rev-parse --git-dir` exits with status zero. -/
  gitRevParseOk : Bool
  /-- The output of `git remote get-url origin`, when it exits with status zero. -/
  gitRemoteOrigin : Option GoString
  /-- The result of `os.Getwd`, when it succeeds. -/
  getwd : Option GoString
  /-- The run of `git` with the given arguments: its standard output, or its failure. -/
  gitRun : List GoString → Except GoString GoString
  /-- The package `text/template`: parse the text and execute it on the data. -/
  templateExecute : GoString → TemplateData → Except GoString GoString
  /-- The HTTP round trip for a URL and a request body. -/
  http : GoString → GeminiRequest → HttpOutcome
  /-- The configuration that `json.Unmarshal` reads from the bytes that `json.MarshalIndent`
  produces for a configuration. -/
  jsonReadBack : Config → Config
  /-- The call `json.Unmarshal` into a `GeminiResponse`. -/
  jsonUnmarshal : GoString → Except GoString GeminiResponse
  /-- The field `cfg.Language` read by `runGenerate`; `config.go` does not declare it. -/
  cfgLanguage : Config → GoString

/-- The mutable part of the system: the configuration file and the effects so far. -/
structure Sys where
  file : ConfigFile
  trace : List Event
  deriving DecidableEq, Repr

/-- Record one effect. -/
def Sys.emit (s : Sys) (e : Event) : Sys := { s with trace := s.trace ++ [e] }

/-! ## `internal/config/config.go` -/

/-- The method `Config.Save`: create the directory, encode, write the file.
`json.MarshalIndent` cannot fail on a `Config`.  The effect `Event.writeFile c` is the write of
the encoding of `c`; after a successful write the file decodes to `w.jsonReadBack c`.  A failed
write is recorded and leaves the modelled file as it was. -/
def Config.Save (w : World) (c : Config) (s : Sys) : Option GoString × Sys :=
  let s1 := s.emit Event.mkdirAll
  match w.mkdirErr with
  | some err => (some (go "failed to create config directory: " ++ err), s1)
  | none =>
    let s2 := s1.emit (Event.writeFile c)
    match w.writeErr with
    | some err => (some err, s2)
    | none => (none, { s2 with file := ConfigFile.stored (w.jsonReadBack c) })

/-- The configuration literal of `createDefaultConfig`. -/
def defaultConfig : Config :=
  { Author := go ""
    APIKey := go ""
    DefaultType := go "report"
    Intervals :=
      [(go "daily", { Since := go "yesterday.midnight", Until := go "now", Name := go "Daily" }),
       (go "weekly", { Since := go "1.week.ago", Until := go "now", Name := go "Weekly" }),
       (go "monthly", { Since := go "1.month.ago", Until := go "now", Name := go "Monthly" })]
    Templates :=
      [(go "report",
        { Name := go "Status Report"
          Description := go "Professional status report format"
          Prompt := go "Based on the following git commits from the \x7b\x7b.Interval\x7d\x7d period, create a professional status report:\n\t\t\t\tGit Commits:\n\t\t\t\t\x7b\x7b.Commits\x7d\x7d\n\n\t\t\t\tCreate a structured report with:\n\t\t\t\t1. **Summary**: Brief overview of accomplishments\n\t\t\t\t2. **Key Changes**: Main features or improvements\n\t\t\t\t3. **Technical Details**: Important technical aspects\n\t\t\t\t4. **Impact**: How these changes benefit the project\n\t\t\t\t5. **Next Steps**: Planned future work\n\n\t\t\t\tFormat as a professional status update." }),
       (go "transcript",
        { Name := go "Meeting Transcript"
          Description := go "Daily standup meeting format"
          Prompt := go "Based on the following git commits from the \x7b\x7b.Interval\x7d\x7d period, create a standup meeting update:\n\n\t\t\t\tGit Commits:\n\t\t\t\t\x7b\x7b.Commits\x7d\x7d\n\n\t\t\t\tFormat as a standup meeting entry:\n\t\t\t\t- **What I accomplished**: Summary of completed work\n\t\t\t\t- **Current focus**: What I'm working on now\n\t\t\t\t- **Next priorities**: Upcoming tasks\n\t\t\t\t- **Blockers/Notes**: Any challenges or important notes\n\n\t\t\t\tKeep it conversational and concise." }),
       (go "summary",
        { Name := go "Work Summary"
          Description := go "Concise work summary"
          Prompt := go "Summarize the following git commits from the \x7b\x7b.Interval\x7d\x7d period:\n\n\t\t\t\t\x7b\x7b.Commits\x7d\x7d\n\n\t\t\t\tProvide a concise summary of the work done, highlighting the most important changes and their purpose." })]
    GitSettings := { IncludeMerges := false, Branches := [go "--all"], ExcludePaths := [] } }

/-- The function `createDefaultConfig`: build the defaults, create the directory, save, and
return the defaults. -/
def createDefaultConfig (w : World) (s : Sys) : Except GoString Config × Sys :=
  let config := defaultConfig
  let s1 := s.emit Event.mkdirAll
  match w.mkdirErr with
  | some err => (Except.error (go "failed to create config directory: " ++ err), s1)
  | none =>
    match config.Save w s1 with
    | (some err, s2) => (Except.error (go "failed to save default config: " ++ err), s2)
    | (none, s2) => (Except.ok config, s2)

/-- The function `Load`. -/
def Load (w : World) (s : Sys) : Except GoString Config × Sys :=
  match s.file with
  | ConfigFile.absent => createDefaultConfig w s
  | ConfigFile.unreadable err => (Except.error (go "failed to read config: " ++ err), s)
  | ConfigFile.malformed err => (Except.error (go "failed to parse config: " ++ err), s)
  | ConfigFile.stored c =>
    let apiKey := w.envGeminiApiKey
    let config := if apiKey ≠ go "" then { c with APIKey := apiKey } else c
    (Except.ok config, s)

/-! ## `cmd/config.go` -/

/-- The command `config set <key> <value>`; cobra hands over exactly two arguments. -/
def setConfig (w : World) (key value : GoString) (s : Sys) : Option GoString × Sys :=
  match Load w s with
  | (Except.error err, s1) => (some err, s1)
  | (Except.ok cfg, s1) =>
    let switched : Except GoString Config :=
      if key = go "author" then Except.ok { cfg with Author := value }
      else if key = go "default_type" then
        match cfg.Templates.lookup value with
        | none => Except.error (go "unknown template: " ++ value)
        | some _ => Except.ok { cfg with DefaultType := value }
      else if key = go "api_key" then Except.ok { cfg with APIKey := value }
      else Except.error (go "unknown config key: " ++ key)
    match switched with
    | Except.error err => (some err, s1)
    | Except.ok cfg2 =>
      match cfg2.Save w s1 with
      | (some err, s2) => (some (go "failed to save config: " ++ err), s2)
      | (none, s2) =>
        (none, s2.emit (Event.stdout (go "Set " ++ key ++ go " = " ++ value ++ go "\n")))

/-- The function `maskAPIKey`; `len` and the slices count bytes. -/
def maskAPIKey (key : GoString) : GoString :=
  if key = go "" then go "<not set>"
  else if key.length < 8 then go "***"
  else key.take 4 ++ go "****" ++ key.drop (key.length - 4)

/-! ## `internal/git/commits.go` -/

/-- The method `isGitRepository`: `.git` exists here, or `git rev-parse --git-dir` succeeds. -/
def isGitRepository (w : World) (s : Sys) : Bool × Sys :=
  let s1 := s.emit (Event.stat (go ".git"))
  if w.statDotGit then (true, s1)
  else (w.gitRevParseOk, s1.emit (Event.exec [go "git", go "rev-parse", go "--git-dir"]))

/-- The method `getRepositoryInfo`: the origin URL, else the working directory. -/
def getRepositoryInfo (w : World) (s : Sys) : Except GoString GoString × Sys :=
  let s1 := s.emit (Event.exec [go "git", go "remote", go "get-url", go "origin"])
  match w.gitRemoteOrigin with
  | none =>
    match w.getwd with
    | none => (Except.error (go "could not determine repository info"), s1)
    | some wd => (Except.ok (go "Local repository: " ++ wd), s1)
  | some output => (Except.ok (stringsTrimSpace output), s1)

/-- The method `buildGitArgs`; each loop of the source is a left fold that appends. -/
def buildGitArgs (cfg : Config) (author : GoString) (interval : Interval) : List GoString :=
  let args := [go "log"]
  let args := args ++ [go "--since=" ++ interval.Since]
  let args := args ++ [go "--until=" ++ interval.Until]
  let args := cfg.GitSettings.Branches.foldl (fun acc branch => acc ++ [branch]) args
  let args := if !cfg.GitSettings.IncludeMerges then args ++ [go "--no-merges"] else args
  let args := args ++ [go "--author=" ++ author]
  let args := cfg.GitSettings.ExcludePaths.foldl
    (fun acc path => acc ++ [go "-- ':!" ++ path ++ go "'"]) args
  args

/-- The loop of `FetchCommits` that counts the lines starting with `commit `. -/
def countCommitHeaders (lines : List GoString) : Nat :=
  lines.foldl (fun commitCount line =>
    if stringsHasPrefix line (go "commit ") then commitCount + 1 else commitCount) 0

/-- The method `FetchCommits`. -/
def FetchCommits (w : World) (cfg : Config) (author intervalKey : GoString) (s : Sys) :
    Except GoString (List GoString) × Sys :=
  match cfg.Intervals.lookup intervalKey with
  | none => (Except.error (go "unknown interval: " ++ intervalKey), s)
  | some interval =>
    match isGitRepository w s with
    | (false, s1) =>
      (Except.error (go "current directory is not a git repository. Please run gdmc from within a git repository"), s1)
    | (true, s1) =>
      let s2 :=
        match getRepositoryInfo w s1 with
        | (Except.error err, s) =>
          s.emit (Event.stdout (go "Warning: Could not get repository info: " ++ err ++ go "\n"))
        | (Except.ok repoInfo, s) =>
          s.emit (Event.stdout (go "Repository: " ++ repoInfo ++ go "\n"))
      let args := buildGitArgs cfg author interval
      let s3 := s2.emit (Event.exec (go "git" :: args))
      match w.gitRun args with
      | Except.error err =>
        (Except.error (go "git command failed: " ++ err
          ++ go ". Make sure you have commits from author '" ++ author ++ go "'"), s3)
      | Except.ok output =>
        let lines := stringsSplit (stringsTrimSpace output) 0x0A
        if lines.length = 1 ∧ lines[0]? = some (go "") then (Except.ok [], s3)
        else
          let commitCount := countCommitHeaders lines
          (Except.ok lines,
            s3.emit (Event.stdout (go "Found " ++ fmtNat commitCount ++ go " commits from "
              ++ interval.Since ++ go " to " ++ interval.Until ++ go " period\n")))

/-! ## `internal/gemini/client.go` -/

/-- The method `processTemplate`: parse and execute with `text/template`. -/
def processTemplate (w : World) (tmplStr : GoString) (data : TemplateData) :
    Except GoString GoString :=
  w.templateExecute tmplStr data

/-- The request body that `callAPI` builds around the prompt. -/
def requestBody (prompt : GoString) : GeminiRequest :=
  { Contents := [{ Parts := [{ Text := prompt }] }]
    GenerationConfig := { Temperature := 7 / 10, TopK := 32, TopP := 1, MaxOutputTokens := 1000 }
    SafetySettings :=
      [{ Category := go "HARM_CATEGORY_HARASSMENT", Threshold := go "BLOCK_MEDIUM_AND_ABOVE" },
       { Category := go "HARM_CATEGORY_HATE_SPEECH", Threshold := go "BLOCK_MEDIUM_AND_ABOVE" }] }

/-- The URL that `callAPI` formats: the fixed endpoint with the key as query credential. -/
def endpointURL (apiKey : GoString) : GoString :=
  go "https://generativelanguage.googleapis.com/v1beta/models/gemini-1.5-flash-latest:generateContent?key=" ++ apiKey

/-- The method `callAPI`. `json.Marshal` cannot fail on the request body. -/
def callAPI (w : World) (apiKey prompt : GoString) (s : Sys) : Except GoString GoString × Sys :=
  let reqBody := requestBody prompt
  let url := endpointURL apiKey
  match w.http url reqBody with
  | HttpOutcome.requestError err => (Except.error (go "failed to create request: " ++ err), s)
  | HttpOutcome.transportError err =>
    (Except.error (go "API request failed: " ++ err), s.emit (Event.httpPost url reqBody))
  | HttpOutcome.readError _ err =>
    (Except.error (go "failed to read response: " ++ err), s.emit (Event.httpPost url reqBody))
  | HttpOutcome.response statusCode body =>
    let s1 := s.emit (Event.httpPost url reqBody)
    if statusCode ≠ 200 then
      (Except.error (go "API error (" ++ fmtInt statusCode ++ go "): " ++ body), s1)
    else
      match w.jsonUnmarshal body with
      | Except.error err => (Except.error (go "failed to parse response: " ++ err), s1)
      | Except.ok response =>
        match response.Candidates with
        | [] => (Except.error (go "empty response from API"), s1)
        | candidate :: _ =>
          match candidate.Content.Parts with
          | [] => (Except.error (go "empty response from API"), s1)
          | part :: _ => (Except.ok part.Text, s1)

/-- The method `GenerateMessage` of a client built by `NewClient(apiKey, cfg)`. -/
def GenerateMessage (w : World) (apiKey : GoString) (cfg : Config) (commits : List GoString)
    (templateKey intervalKey author : GoString) (s : Sys) : Except GoString GoString × Sys :=
  match cfg.Templates.lookup templateKey with
  | none => (Except.error (go "unknown template: " ++ templateKey), s)
  | some tmpl =>
    match cfg.Intervals.lookup intervalKey with
    | none => (Except.error (go "unknown interval: " ++ intervalKey), s)
    | some interval =>
      let data : TemplateData :=
        { Commits := stringsJoin commits (go "\n"), Interval := interval.Name, Author := author }
      match processTemplate w tmpl.Prompt data with
      | Except.error err => (Except.error (go "failed to process template: " ++ err), s)
      | Except.ok prompt => callAPI w apiKey prompt s

/-! ## `cmd/generate.go` -/

/-- The flags of `generate`; a flag that is not given is the empty string. -/
structure Flags where
  author : GoString
  interval : GoString
  template : GoString
  apiKey : GoString
  language : GoString
  deriving DecidableEq, Repr

def getTemplateKeys (m : List (GoString × Template)) : List GoString := m.map Prod.fst

def getIntervalKeys (m : List (GoString × Interval)) : List GoString := m.map Prod.fst

/-- The command `generate`. The call of `GenerateMessage` in the source passes `language` as a
fifth argument, which the method as declared in `client.go` does not take; the model calls the
method as declared. -/
def runGenerate (w : World) (flags : Flags) (s : Sys) : Option GoString × Sys :=
  match Load w s with
  | (Except.error err, s1) => (some (go "failed to load config: " ++ err), s1)
  | (Except.ok cfg, s1) =>
    let authorR : Except GoString GoString :=
      if flags.author = go "" then
        if cfg.Author = go "" then
          Except.error (go "author email is required. Use --author flag or set in config")
        else Except.ok cfg.Author
      else Except.ok flags.author
    match authorR with
    | Except.error err => (some err, s1)
    | Except.ok author =>
      let template := if flags.template = go "" then cfg.DefaultType else flags.template
      let interval := if flags.interval = go "" then go "daily" else flags.interval
      let language := if flags.language = go "" then w.cfgLanguage cfg else flags.language
      let apiKeyR : Except GoString GoString :=
        if flags.apiKey = go "" then
          if cfg.APIKey = go "" then
            Except.error (go "gemini API key is required. Use --api-key flag or set GEMINI_API_KEY env var")
          else Except.ok cfg.APIKey
        else Except.ok flags.apiKey
      match apiKeyR with
      | Except.error err => (some err, s1)
      | Except.ok apiKey =>
        match cfg.Templates.lookup template with
        | none =>
          (some (go "unknown template: " ++ template ++ go ". Available: "
            ++ fmtStrings (getTemplateKeys cfg.Templates)), s1)
        | some tmpl =>
          match cfg.Intervals.lookup interval with
          | none =>
            (some (go "unknown interval: " ++ interval ++ go ". Available: "
              ++ fmtStrings (getIntervalKeys cfg.Intervals)), s1)
          | some ivl =>
            match FetchCommits w cfg author interval s1 with
            | (Except.error err, s2) => (some (go "failed to fetch commits: " ++ err), s2)
            | (Except.ok commits, s2) =>
              if commits.length = 0 then
                (none, s2.emit (Event.stdout (go "No commits found for " ++ author ++ go " in "
                  ++ interval ++ go " period.\n")))
              else
                let s3 := s2.emit (Event.stdout (go "Found " ++ fmtNat commits.length
                  ++ go " commits for " ++ interval ++ go " period\n"))
                let s4 := s3.emit (Event.stdout (go "Language: " ++ language ++ go "\n"))
                match GenerateMessage w apiKey cfg commits template interval author s4 with
                | (Except.error err, s5) => (some (go "failed to generate message: " ++ err), s5)
                | (Except.ok message, s5) =>
                  let s6 := s5.emit (Event.stdout (go "\n" ++ tmpl.Name ++ go " (" ++ ivl.Name
                    ++ go ")\n"))
                  let s7 := s6.emit (Event.stdout (stringsRepeat (go "=") 50 ++ go "\n"))
                  (none, s7.emit (Event.stdout (message ++ go "\n")))

/-! ## Sample inputs and specification-side definitions -/

/-- C1 read with characters: the mask of a key text when lengths and positions count the
characters (Unicode code points) of the key. -/
def maskAPIKeyByCharacters (key : String) : String :=
  if key = "" then "<not set>"
  else if key.length < 8 then "***"
  else String.mk (key.data.take 4) ++ "****" ++ String.mk (key.data.drop (key.length - 4))

/-- The value of the configuration after `config set key value` has passed the switch. -/
def Config.withSetting (cfg : Config) (key value : GoString) : Config :=
  if key = go "author" then { cfg with Author := value }
  else if key = go "default_type" then { cfg with DefaultType := value }
  else if key = go "api_key" then { cfg with APIKey := value }
  else cfg

/-- The response body of the specification's example. -/
def helloBody : GoString :=
  go "\x7b\"candidates\":[\x7b\"content\":\x7b\"parts\":[\x7b\"text\":\"Hello\"\x7d]\x7d\x7d]\x7d"

/-- The value that the example body denotes. -/
def helloResponse : GeminiResponse :=
  { Candidates := [{ Content := { Parts := [{ Text := go "Hello" }] } }] }

/-- The output of `git log` for one commit: five lines, one of them a commit header. -/
def oneCommitLog : GoString :=
  go "commit 1a2b3c4\nAuthor: Dev <dev@example.com>\nDate:   Mon Jan 1 10:00:00 2024 +0000\n\n    Fix parser\n"

/-- A world in which every collaborator succeeds with fixed answers: no environment key, a
working tree with `.git`, one commit in the log, a template engine that returns the commit block,
and an endpoint that answers 200 with the example body.  The configurations saved in the sample
runs hold ASCII text under distinct keys, which the JSON encoding gives back unchanged. -/
def sampleWorld : World :=
  { envGeminiApiKey := go ""
    mkdirErr := none
    writeErr := none
    statDotGit := true
    gitRevParseOk := true
    gitRemoteOrigin := none
    getwd := some (go "/home/dev/project")
    jsonReadBack := fun c => c
    gitRun := fun _ => Except.ok oneCommitLog
    templateExecute := fun _ data => Except.ok data.Commits
    http := fun _ _ => HttpOutcome.response 200 helloBody
    jsonUnmarshal := fun body =>
      if body = helloBody then Except.ok helloResponse else Except.error (go "unexpected end of JSON input")
    cfgLanguage := fun _ => go "" }

/-- The sample world on a first run with `GEMINI_API_KEY` set. -/
def firstRunWorld : World := { sampleWorld with envGeminiApiKey := go "env-secret-key" }

/-- A stored configuration with an author and an API key. -/
def storedConfig : Config :=
  { defaultConfig with Author := go "dev@example.com", APIKey := go "stored-key-K" }

/-- The sample world with `GEMINI_API_KEY` set to a key other than the stored one. -/
def envWorld : World := { sampleWorld with envGeminiApiKey := go "env-key-E" }

/-- Effects that only `FetchCommits` produces: the probe of `.git` and the runs of `git`. -/
def Event.isGitCall : Event → Bool
  | Event.stat _ => true
  | Event.exec _ => true
  | _ => false

/-- Effects that only `callAPI` produces: the HTTP round trip. -/
def Event.isNetworkCall : Event → Bool
  | Event.httpPost _ _ => true
  | _ => false

/-- A string that is empty or consists only of white space: the concatenation of the encodings
of some white-space runes. -/
def OnlyWhiteSpace (s : GoString) : Prop :=
  ∃ runes : List GoString, (∀ r ∈ runes, r ∈ spaceEncodings) ∧ s = runes.flatten

/-- The texts written to standard output, in order. -/
def stdoutOf (trace : List Event) : List GoString :=
  trace.filterMap (fun e => match e with
    | Event.stdout text => some text
    | _ => none)

/-- A system whose configuration file holds `storedConfig` and where nothing has happened yet. -/
def storedSys : Sys := { file := ConfigFile.stored storedConfig, trace := [] }

/-- The command `generate` without any flag. -/
def noFlags : Flags :=
  { author := go "", interval := go "", template := go "", apiKey := go "", language := go "" }

/-- The sample world when `git log` prints nothing but a line end. -/
def noCommitWorld : World := { sampleWorld with gitRun := fun _ => Except.ok (go "\n") }

/-- The sample world when the endpoint answers 429 with the body `rate limited`. -/
def rateLimitedWorld : World :=
  { sampleWorld with http := fun _ _ => HttpOutcome.response 429 (go "rate limited") }

/-- A system whose configuration file holds the defaults (no author, no API key). -/
def defaultSys : Sys := { file := ConfigFile.stored defaultConfig, trace := [] }

/-- A system on a first run: no configuration file, and nothing has happened yet. -/
def firstRunSys : Sys := { file := ConfigFile.absent, trace := [] }

/-! ## Theorems -/

theorem foldl_append_singleton {α β : Type} (f : α → β) (xs : List α) (init : List β) :
    xs.foldl (fun acc x => acc ++ [f x]) init = init ++ xs.map f := by
  induction xs generalizing init with
  | nil => simp
  | cons x xs ih => simp [List.foldl_cons, ih]

/-! ### C1: `maskAPIKey` -/

/-- C1, counterexample. The key text of four characters `éééé` is not empty and shorter than
eight characters, so the claim as written masks it as `***`; its Go string has eight bytes, and
`maskAPIKey` returns the first four bytes, `****`, and the last four bytes. -/
theorem maskAPIKey_characters_counterexample :
    "éééé".length = 4
    ∧ maskAPIKeyByCharacters "éééé" = "***"
    ∧ maskAPIKey (go "éééé") = go "éé****éé"
    ∧ maskAPIKey (go "éééé") ≠ go (maskAPIKeyByCharacters "éééé") := by
  decide

/-- C1, amended: lengths and positions count bytes. `maskAPIKey` returns `<not set>` for the
empty key, `***` for a non-empty key of fewer than 8 bytes, and otherwise the first 4 bytes of the
key, then `****`, then its last 4 bytes; `abcd12345678` is masked as `abcd****5678`. -/
theorem maskAPIKey_bytes (key : GoString) :
    (key = go "" → maskAPIKey key = go "<not set>")
    ∧ (key ≠ go "" → key.length < 8 → maskAPIKey key = go "***")
    ∧ (8 ≤ key.length →
        maskAPIKey key = key.take 4 ++ go "****" ++ (key.reverse.take 4).reverse)
    ∧ maskAPIKey (go "abcd12345678") = go "abcd****5678" := by
  refine ⟨?_, ?_, ?_, by decide⟩
  · intro h; simp [maskAPIKey, h]
  · intro h1 h2; simp [maskAPIKey, h1, h2]
  · intro h
    have hne : key ≠ go "" := by
      intro h0; rw [h0] at h; revert h; decide
    have hlt : ¬ key.length < 8 := by omega
    simp only [maskAPIKey, hne, hlt, if_false]
    congr 2
    rw [List.reverse_take]
    simp

/-- Witness at a key of three bytes and at a key of nine bytes. -/
theorem maskAPIKey_bytes_witness :
    maskAPIKey (go "") = go "<not set>"
    ∧ maskAPIKey (go "abc") = go "***"
    ∧ maskAPIKey (go "sk-123456") = go "sk-1****3456" :=
  ⟨(maskAPIKey_bytes (go "")).1 rfl,
   (maskAPIKey_bytes (go "abc")).2.1 (by decide) (by decide),
   (maskAPIKey_bytes (go "sk-123456")).2.2.1 (by decide)⟩

/-! ### C2: `buildGitArgs` -/

/-- C2. `buildGitArgs` returns `log`, `--since=<since>`, `--until=<until>`, then the configured
branches in order, then `--no-merges` exactly when `include_merges` is false, then
`--author=<author>`, then one exclusion argument per excluded path in order; with the bounds
`1.week.ago` and `now` the list contains `--since=1.week.ago` and `--until=now`. -/
theorem buildGitArgs_spec (cfg : Config) (author : GoString) (interval : Interval) :
    buildGitArgs cfg author interval =
        [go "log", go "--since=" ++ interval.Since, go "--until=" ++ interval.Until]
          ++ cfg.GitSettings.Branches
          ++ (if cfg.GitSettings.IncludeMerges = false then [go "--no-merges"] else [])
          ++ [go "--author=" ++ author]
          ++ cfg.GitSettings.ExcludePaths.map (fun path => go "-- ':!" ++ path ++ go "'")
    ∧ (interval.Since = go "1.week.ago" → interval.Until = go "now" →
        go "--since=1.week.ago" ∈ buildGitArgs cfg author interval
        ∧ go "--until=now" ∈ buildGitArgs cfg author interval) := by
  have key : buildGitArgs cfg author interval =
        [go "log", go "--since=" ++ interval.Since, go "--until=" ++ interval.Until]
          ++ cfg.GitSettings.Branches
          ++ (if cfg.GitSettings.IncludeMerges = false then [go "--no-merges"] else [])
          ++ [go "--author=" ++ author]
          ++ cfg.GitSettings.ExcludePaths.map (fun path => go "-- ':!" ++ path ++ go "'") := by
    unfold buildGitArgs
    simp only [foldl_append_singleton (fun (b : GoString) => b), foldl_append_singleton,
      List.map_id']
    cases cfg.GitSettings.IncludeMerges <;> simp
  refine ⟨key, ?_⟩
  intro hs hu
  have e1 : go "--since=1.week.ago" = go "--since=" ++ interval.Since := by rw [hs]; decide
  have e2 : go "--until=now" = go "--until=" ++ interval.Until := by rw [hu]; decide
  rw [key, e1, e2]
  simp

/-- Witness at the weekly interval of the default configuration. -/
theorem buildGitArgs_spec_witness :
    buildGitArgs defaultConfig (go "dev@example.com")
        { Since := go "1.week.ago", Until := go "now", Name := go "Weekly" }
      = [go "log", go "--since=1.week.ago", go "--until=now", go "--all", go "--no-merges",
         go "--author=dev@example.com"]
    ∧ go "--since=1.week.ago" ∈ buildGitArgs defaultConfig (go "dev@example.com")
        { Since := go "1.week.ago", Until := go "now", Name := go "Weekly" } :=
  ⟨by decide,
   ((buildGitArgs_spec defaultConfig (go "dev@example.com")
      { Since := go "1.week.ago", Until := go "now", Name := go "Weekly" }).2 rfl rfl).1⟩

/-! ### C3: `setConfig` -/

theorem lookup_isNone_iff {α : Type} (k : GoString) (m : List (GoString × α)) :
    m.lookup k = none ↔ k ∉ m.map Prod.fst := by
  induction m with
  | nil => simp
  | cons p m ih =>
    obtain ⟨a, b⟩ := p
    by_cases h : k = a
    · subst h; simp [List.lookup]
    · have h2 : (k == a) = false := by simpa using h
      simp [List.lookup, h2, ih, h]

/-- A successful `Load` either found a stored configuration and changed nothing, or found no
file and created the default one. -/
theorem Load_ok_cases (w : World) (s s1 : Sys) (cfg : Config)
    (hload : Load w s = (Except.ok cfg, s1)) :
    (∃ c, s.file = ConfigFile.stored c ∧ s1 = s)
    ∨ (s.file = ConfigFile.absent
        ∧ s1 = { file := ConfigFile.stored (w.jsonReadBack defaultConfig)
                 trace := s.trace
                   ++ [Event.mkdirAll, Event.mkdirAll, Event.writeFile defaultConfig] }) := by
  unfold Load at hload
  cases hf : s.file with
  | absent =>
    right
    simp only [hf, createDefaultConfig, Config.Save, Sys.emit] at hload
    cases hm : w.mkdirErr with
    | some err =>
      simp only [hm] at hload
      exact Except.noConfusion (Prod.mk.inj hload).1
    | none =>
      cases hw : w.writeErr with
      | some err =>
        simp only [hm, hw] at hload
        exact Except.noConfusion (Prod.mk.inj hload).1
      | none =>
        simp only [hm, hw] at hload
        refine ⟨rfl, ?_⟩
        rw [← (Prod.mk.inj hload).2]
        simp
  | unreadable err =>
    simp only [hf] at hload
    exact Except.noConfusion (Prod.mk.inj hload).1
  | malformed err =>
    simp only [hf] at hload
    exact Except.noConfusion (Prod.mk.inj hload).1
  | stored c =>
    left
    simp only [hf] at hload
    exact ⟨c, rfl, (Prod.mk.inj hload).2.symm⟩

/-- C3, counterexample. On a first run (no configuration file) in a world where loading and
saving succeed, `config set colour blue` fails with `unknown config key: colour`, and yet the
command has written the configuration file: `Load` created the default file before the key was
looked at. -/
theorem setConfig_first_run_counterexample :
    (Load sampleWorld firstRunSys).1 = Except.ok defaultConfig
    ∧ (setConfig sampleWorld (go "colour") (go "blue") firstRunSys).1
        = some (go "unknown config key: colour")
    ∧ (setConfig sampleWorld (go "colour") (go "blue") firstRunSys).2
        = { file := ConfigFile.stored defaultConfig
            trace := [Event.mkdirAll, Event.mkdirAll, Event.writeFile defaultConfig] }
    ∧ Event.writeFile defaultConfig
        ∈ (setConfig sampleWorld (go "colour") (go "blue") firstRunSys).2.trace := by
  refine ⟨rfl, rfl, rfl, ?_⟩
  have h : (setConfig sampleWorld (go "colour") (go "blue") firstRunSys).2.trace
      = [Event.mkdirAll, Event.mkdirAll, Event.writeFile defaultConfig] := rfl
  rw [h]
  simp

/-- C3, amended. Let `Load` succeed with `cfg` and let saving succeed. `config set key value`
fails exactly when the key is none of `author`, `default_type`, `api_key`, or the key is
`default_type` and the value is no key of `cfg.Templates`; the errors are
`unknown config key: <key>` and `unknown template: <value>`. When it fails, the file and the
effects are exactly as `Load` left them: where a configuration file was stored nothing has
changed and nothing was written, and where no file existed the only writes are those of `Load`
creating the default file. When it succeeds, the effects after loading are the directory
creation, the write of the encoding of `cfg` with the setting applied, and the report, and the
file then decodes to what the JSON package reads back from that encoding. -/
theorem setConfig_spec (w : World) (s s1 : Sys) (cfg : Config) (key value : GoString)
    (hload : Load w s = (Except.ok cfg, s1))
    (hmkdir : w.mkdirErr = none) (hwrite : w.writeErr = none) :
    (((setConfig w key value s).1 ≠ none) ↔
        ((key ≠ go "author" ∧ key ≠ go "default_type" ∧ key ≠ go "api_key")
          ∨ (key = go "default_type" ∧ value ∉ cfg.Templates.map Prod.fst)))
    ∧ ((key ≠ go "author" ∧ key ≠ go "default_type" ∧ key ≠ go "api_key") →
        (setConfig w key value s).1 = some (go "unknown config key: " ++ key))
    ∧ ((key = go "default_type" ∧ value ∉ cfg.Templates.map Prod.fst) →
        (setConfig w key value s).1 = some (go "unknown template: " ++ value))
    ∧ ((setConfig w key value s).1 ≠ none →
        (setConfig w key value s).2 = s1
        ∧ (∀ c, s.file = ConfigFile.stored c → s1 = s)
        ∧ ((∃ c, s.file = ConfigFile.stored c ∧ (setConfig w key value s).2 = s)
            ∨ (s.file = ConfigFile.absent
                ∧ (setConfig w key value s).2
                    = { file := ConfigFile.stored (w.jsonReadBack defaultConfig)
                        trace := s.trace ++
                          [Event.mkdirAll, Event.mkdirAll, Event.writeFile defaultConfig] })))
    ∧ ((setConfig w key value s).1 = none →
        (setConfig w key value s).2.file
          = ConfigFile.stored (w.jsonReadBack (cfg.withSetting key value))
        ∧ (setConfig w key value s).2.trace = s1.trace ++
            [Event.mkdirAll, Event.writeFile (cfg.withSetting key value),
             Event.stdout (go "Set " ++ key ++ go " = " ++ value ++ go "\n")]) := by
  have hstored : ∀ c, s.file = ConfigFile.stored c → s1 = s := by
    intro c hc
    simp only [Load, hc] at hload
    exact (Prod.mk.inj hload).2.symm
  have hcases := Load_ok_cases w s s1 cfg hload
  have hfail : (setConfig w key value s).2 = s1 →
      (setConfig w key value s).2 = s1
      ∧ (∀ c, s.file = ConfigFile.stored c → s1 = s)
      ∧ ((∃ c, s.file = ConfigFile.stored c ∧ (setConfig w key value s).2 = s)
          ∨ (s.file = ConfigFile.absent
              ∧ (setConfig w key value s).2
                  = { file := ConfigFile.stored (w.jsonReadBack defaultConfig)
                      trace := s.trace ++
                        [Event.mkdirAll, Event.mkdirAll, Event.writeFile defaultConfig] })) := by
    intro h
    refine ⟨h, hstored, ?_⟩
    rw [h]
    exact hcases
  have hda : go "default_type" ≠ go "author" := by decide
  have hka : go "api_key" ≠ go "author" := by decide
  have hkd : go "api_key" ≠ go "default_type" := by decide
  by_cases h1 : key = go "author"
  · subst h1
    have hr : setConfig w (go "author") value s
        = (none, { file := ConfigFile.stored (w.jsonReadBack { cfg with Author := value })
                   trace := s1.trace ++ [Event.mkdirAll,
                     Event.writeFile { cfg with Author := value },
                     Event.stdout (go "Set " ++ go "author" ++ go " = " ++ value ++ go "\n")] }) := by
      simp [setConfig, hload, Config.Save, hmkdir, hwrite, Sys.emit]
    rw [hr]
    simp [Config.withSetting, Ne.symm hda]
  · by_cases h2 : key = go "default_type"
    · subst h2
      cases hl : cfg.Templates.lookup value with
      | none =>
        have hnot := (lookup_isNone_iff value cfg.Templates).1 hl
        have hr : setConfig w (go "default_type") value s
            = (some (go "unknown template: " ++ value), s1) := by
          simp [setConfig, hload, hda, hl]
        have hf := hfail (by rw [hr])
        rw [hr] at hf ⊢
        refine ⟨?_, ?_, ?_, ?_, ?_⟩
        · simp [hnot]
        · intro h; exact absurd rfl h.2.1
        · intro _; rfl
        · intro _; exact hf
        · intro h; exact absurd h (by simp)
      | some t =>
        have hin : ¬ value ∉ cfg.Templates.map Prod.fst := by
          intro hc
          rw [← lookup_isNone_iff] at hc
          rw [hc] at hl
          exact Option.noConfusion hl
        have hr : setConfig w (go "default_type") value s
            = (none, { file := ConfigFile.stored (w.jsonReadBack { cfg with DefaultType := value })
                       trace := s1.trace ++ [Event.mkdirAll,
                         Event.writeFile { cfg with DefaultType := value },
                         Event.stdout (go "Set " ++ go "default_type" ++ go " = " ++ value
                           ++ go "\n")] }) := by
          simp [setConfig, hload, hda, hl, Config.Save, hmkdir, hwrite, Sys.emit]
        rw [hr]
        refine ⟨?_, ?_, ?_, ?_, ?_⟩
        · constructor
          · intro h; exact absurd rfl h
          · intro h
            rcases h with h | h
            · exact absurd rfl h.2.1
            · exact absurd h.2 hin
        · intro h; exact absurd rfl h.2.1
        · intro h; exact absurd h.2 hin
        · intro h; exact absurd rfl h
        · intro _
          simp [Config.withSetting, hda]
    · by_cases h3 : key = go "api_key"
      · subst h3
        have hr : setConfig w (go "api_key") value s
            = (none, { file := ConfigFile.stored (w.jsonReadBack { cfg with APIKey := value })
                       trace := s1.trace ++ [Event.mkdirAll,
                         Event.writeFile { cfg with APIKey := value },
                         Event.stdout (go "Set " ++ go "api_key" ++ go " = " ++ value
                           ++ go "\n")] }) := by
          simp [setConfig, hload, hka, hkd, Config.Save, hmkdir, hwrite, Sys.emit]
        rw [hr]
        simp [Config.withSetting, hka, hkd]
      · have hr : setConfig w key value s = (some (go "unknown config key: " ++ key), s1) := by
          simp [setConfig, hload, h1, h2, h3]
        have hf := hfail (by rw [hr])
        rw [hr] at hf ⊢
        refine ⟨?_, ?_, ?_, ?_, ?_⟩
        · simp [h1, h2, h3]
        · intro _; rfl
        · intro h; exact absurd h.1 h2
        · intro _; exact hf
        · intro h; exact absurd h (by simp)

/-! ### C4 and C5: the environment override of the API key -/

/-- C4, evaluated at the failing input. With `GEMINI_API_KEY=env-secret-key` and no configuration
file, `Load` succeeds and returns the default configuration, whose API key is empty: the early
return through `createDefaultConfig` skips the override. With a stored file the same `Load`
returns the environment value. -/
theorem Load_first_run_drops_env_key :
    firstRunWorld.envGeminiApiKey = go "env-secret-key"
    ∧ (Load firstRunWorld { file := ConfigFile.absent, trace := [] }).1 = Except.ok defaultConfig
    ∧ defaultConfig.APIKey = go ""
    ∧ (Load firstRunWorld { file := ConfigFile.stored defaultConfig, trace := [] }).1
        = Except.ok { defaultConfig with APIKey := go "env-secret-key" } := by
  exact ⟨rfl, rfl, rfl, rfl⟩

/-- C5, evaluated at the failing input. The file stores the API key `stored-key-K`, the
environment holds `env-key-E`; after `config set author bob@example.com` the file stores
`env-key-E`: the value that `Load` put in memory is saved with the rest. -/
theorem setConfig_author_persists_env_key :
    setConfig envWorld (go "author") (go "bob@example.com")
        { file := ConfigFile.stored storedConfig, trace := [] }
      = (none,
          { file := ConfigFile.stored
              { storedConfig with Author := go "bob@example.com", APIKey := go "env-key-E" }
            trace :=
              [Event.mkdirAll,
               Event.writeFile
                 { storedConfig with Author := go "bob@example.com", APIKey := go "env-key-E" },
               Event.stdout (go "Set author = bob@example.com\n")] }) := by
  rfl

/-! ### C6: the response handling of `callAPI` -/

/-- C6, counterexample. A response with status 201 (a 2xx status) whose body decodes to the
example value does not yield `Hello`: `callAPI` compares the status with 200 and fails with
`API error (201): <body>`. -/
theorem callAPI_status_201_counterexample :
    sampleWorld.jsonUnmarshal helloBody = Except.ok helloResponse
    ∧ (callAPI { sampleWorld with http := fun _ _ => HttpOutcome.response 201 helloBody }
          (go "key") (go "prompt") { file := ConfigFile.absent, trace := [] }).1
        = Except.error (go "API error (201): " ++ helloBody)
    ∧ (callAPI { sampleWorld with http := fun _ _ => HttpOutcome.response 201 helloBody }
          (go "key") (go "prompt") { file := ConfigFile.absent, trace := [] }).1
        ≠ Except.ok (go "Hello") := by
  refine ⟨rfl, rfl, ?_⟩
  intro h
  have h2 : (Except.error (go "API error (201): " ++ helloBody) : Except GoString GoString)
      = Except.ok (go "Hello") := h
  exact Except.noConfusion h2

/-- C6, amended: the status code is 200. For a response with status 200 whose body decodes to
`response`, `callAPI` fails with `empty response from API` when there is no candidate or the first
candidate has no parts, and otherwise returns the text of the first part of the first candidate
unchanged; when the example body decodes to the example value the result is `Hello`. -/
theorem callAPI_status_200 (w : World) (apiKey prompt body : GoString) (s : Sys)
    (response : GeminiResponse)
    (hhttp : w.http (endpointURL apiKey) (requestBody prompt) = HttpOutcome.response 200 body)
    (hjson : w.jsonUnmarshal body = Except.ok response) :
    ((response.Candidates = []
        ∨ response.Candidates.head?.map (fun c => c.Content.Parts) = some []) →
      (callAPI w apiKey prompt s).1 = Except.error (go "empty response from API"))
    ∧ (∀ candidate candidates part parts, response.Candidates = candidate :: candidates →
        candidate.Content.Parts = part :: parts →
        (callAPI w apiKey prompt s).1 = Except.ok part.Text)
    ∧ (body = helloBody → response = helloResponse →
        (callAPI w apiKey prompt s).1 = Except.ok (go "Hello")) := by
  refine ⟨?_, ?_, ?_⟩
  · intro h
    rcases h with h | h
    · simp [callAPI, hhttp, hjson, h]
    · cases hc : response.Candidates with
      | nil => simp [callAPI, hhttp, hjson, hc]
      | cons c cs =>
        rw [hc] at h
        have hp : c.Content.Parts = [] := by simpa using h
        simp [callAPI, hhttp, hjson, hc, hp]
  · intro c cs p ps hc hp
    simp [callAPI, hhttp, hjson, hc, hp]
  · intro _ h
    subst h
    simp [callAPI, hhttp, hjson, helloResponse]

/-- Witness at the example body. -/
theorem callAPI_status_200_witness :
    (callAPI sampleWorld (go "key") (go "prompt") { file := ConfigFile.absent, trace := [] }).1
      = Except.ok (go "Hello") :=
  (callAPI_status_200 sampleWorld (go "key") (go "prompt") helloBody
    { file := ConfigFile.absent, trace := [] } helloResponse rfl rfl).2.2 rfl rfl

/-! ### C7: a status outside 2xx -/

theorem fmtInt_429 : fmtInt 429 = go "429" := by decide

/-- C7. When the template and the interval are known, the template renders to `prompt`, and
the endpoint answers with a status outside 200..299 and a body, then `callAPI`, and with it
`GenerateMessage`, returns an error and no message; the error text contains the decimal status
code and the body as contiguous substrings. For 429 and `rate limited` it contains `429` and
`rate limited`. -/
theorem GenerateMessage_non_2xx (w : World) (apiKey : GoString) (cfg : Config)
    (commits : List GoString) (templateKey intervalKey author : GoString) (s : Sys)
    (tmpl : Template) (interval : Interval) (prompt : GoString) (status : Int) (body : GoString)
    (htmpl : cfg.Templates.lookup templateKey = some tmpl)
    (hinterval : cfg.Intervals.lookup intervalKey = some interval)
    (hrender : processTemplate w tmpl.Prompt
      { Commits := stringsJoin commits (go "\n"), Interval := interval.Name, Author := author }
        = Except.ok prompt)
    (hhttp : w.http (endpointURL apiKey) (requestBody prompt) = HttpOutcome.response status body)
    (hstatus : ¬ (200 ≤ status ∧ status ≤ 299)) :
    ∃ err,
      (callAPI w apiKey prompt s).1 = Except.error err
      ∧ (GenerateMessage w apiKey cfg commits templateKey intervalKey author s).1
          = Except.error err
      ∧ fmtInt status <:+: err ∧ body <:+: err
      ∧ (status = 429 → body = go "rate limited" →
          go "429" <:+: err ∧ go "rate limited" <:+: err) := by
  have hne : status ≠ 200 := by
    intro h; apply hstatus; omega
  have hcall : (callAPI w apiKey prompt s).1
      = Except.error (go "API error (" ++ fmtInt status ++ go "): " ++ body) := by
    simp [callAPI, hhttp, hne]
  have hs : fmtInt status <:+: go "API error (" ++ fmtInt status ++ go "): " ++ body :=
    ⟨go "API error (", go "): " ++ body, by simp⟩
  have hb : body <:+: go "API error (" ++ fmtInt status ++ go "): " ++ body :=
    ⟨go "API error (" ++ fmtInt status ++ go "): ", [], by simp⟩
  refine ⟨_, hcall, ?_, hs, hb, ?_⟩
  · simp only [GenerateMessage, htmpl, hinterval, hrender]
    exact hcall
  · intro h1 h2
    subst h1; subst h2
    rw [fmtInt_429] at hs
    exact ⟨hs, hb⟩

/-! ### C8: `runGenerate` fails before any git or network call -/

/-- The effects of `Load` are directory creations and writes of the configuration file. -/
theorem Load_trace (w : World) (s s1 : Sys) (r : Except GoString Config)
    (hload : Load w s = (r, s1)) :
    ∃ added, s1.trace = s.trace ++ added
      ∧ ∀ e ∈ added, e.isGitCall = false ∧ e.isNetworkCall = false := by
  unfold Load at hload
  cases hf : s.file with
  | absent =>
    simp only [hf, createDefaultConfig, Config.Save, Sys.emit] at hload
    cases hm : w.mkdirErr with
    | some err =>
      simp only [hm] at hload
      refine ⟨[Event.mkdirAll], ?_, by simp [Event.isGitCall, Event.isNetworkCall]⟩
      rw [← (Prod.mk.inj hload).2]
    | none =>
      cases hw : w.writeErr with
      | some err =>
        simp only [hm, hw] at hload
        refine ⟨[Event.mkdirAll, Event.mkdirAll, Event.writeFile defaultConfig], ?_,
          by simp [Event.isGitCall, Event.isNetworkCall]⟩
        rw [← (Prod.mk.inj hload).2]
        simp
      | none =>
        simp only [hm, hw] at hload
        refine ⟨[Event.mkdirAll, Event.mkdirAll, Event.writeFile defaultConfig], ?_,
          by simp [Event.isGitCall, Event.isNetworkCall]⟩
        rw [← (Prod.mk.inj hload).2]
        simp
  | unreadable err =>
    simp only [hf] at hload
    exact ⟨[], by rw [← (Prod.mk.inj hload).2]; simp, by simp⟩
  | malformed err =>
    simp only [hf] at hload
    exact ⟨[], by rw [← (Prod.mk.inj hload).2]; simp, by simp⟩
  | stored c =>
    simp only [hf] at hload
    exact ⟨[], by rw [← (Prod.mk.inj hload).2]; simp, by simp⟩

/-- C8. Let `Load` return `cfg`. If the author is empty in flag and configuration, or the API key
is empty in flag and loaded configuration, or the resolved template key (flag, else
`default_type`) is no configured template, or the resolved interval key (flag, else `daily`) is
no configured interval, then `generate` returns an error and leaves the system as `Load` left it:
the effects of the whole command contain no probe or run of git and no HTTP request. -/
theorem runGenerate_fails_fast (w : World) (flags : Flags) (s s1 : Sys) (cfg : Config)
    (hload : Load w s = (Except.ok cfg, s1))
    (h : (flags.author = go "" ∧ cfg.Author = go "")
        ∨ (flags.apiKey = go "" ∧ cfg.APIKey = go "")
        ∨ (if flags.template = go "" then cfg.DefaultType else flags.template)
            ∉ cfg.Templates.map Prod.fst
        ∨ (if flags.interval = go "" then go "daily" else flags.interval)
            ∉ cfg.Intervals.map Prod.fst) :
    (runGenerate w flags s).1 ≠ none
    ∧ (runGenerate w flags s).2 = s1
    ∧ ∃ added, (runGenerate w flags s).2.trace = s.trace ++ added
        ∧ ∀ e ∈ added, e.isGitCall = false ∧ e.isNetworkCall = false := by
  have key : (runGenerate w flags s).1 ≠ none ∧ (runGenerate w flags s).2 = s1 := by
    rw [← lookup_isNone_iff, ← lookup_isNone_iff] at h
    simp only [runGenerate, hload]
    by_cases ha : flags.author = go ""
    · by_cases hca : cfg.Author = go ""
      · simp [ha, hca]
      · by_cases hk : flags.apiKey = go ""
        · by_cases hck : cfg.APIKey = go ""
          · simp [ha, hca, hk, hck]
          · rcases h with h | h | h | h
            · exact absurd h.2 hca
            · exact absurd h.2 hck
            · simp [ha, hca, hk, hck, h]
            · cases ht : List.lookup (if flags.template = go "" then cfg.DefaultType
                  else flags.template) cfg.Templates with
              | none => simp [ha, hca, hk, hck, ht]
              | some t => simp [ha, hca, hk, hck, ht, h]
        · rcases h with h | h | h | h
          · exact absurd h.2 hca
          · exact absurd h.1 hk
          · simp [ha, hca, hk, h]
          · cases ht : List.lookup (if flags.template = go "" then cfg.DefaultType
                else flags.template) cfg.Templates with
            | none => simp [ha, hca, hk, ht]
            | some t => simp [ha, hca, hk, ht, h]
    · by_cases hk : flags.apiKey = go ""
      · by_cases hck : cfg.APIKey = go ""
        · simp [ha, hk, hck]
        · rcases h with h | h | h | h
          · exact absurd h.1 ha
          · exact absurd h.2 hck
          · simp [ha, hk, hck, h]
          · cases ht : List.lookup (if flags.template = go "" then cfg.DefaultType
                else flags.template) cfg.Templates with
            | none => simp [ha, hk, hck, ht]
            | some t => simp [ha, hk, hck, ht, h]
      · rcases h with h | h | h | h
        · exact absurd h.1 ha
        · exact absurd h.1 hk
        · simp [ha, hk, h]
        · cases ht : List.lookup (if flags.template = go "" then cfg.DefaultType
              else flags.template) cfg.Templates with
          | none => simp [ha, hk, ht]
          | some t => simp [ha, hk, ht, h]
  refine ⟨key.1, key.2, ?_⟩
  rw [key.2]
  exact Load_trace w s s1 _ hload

/-! ### C9: `FetchCommits` and the empty batch -/

theorem spaceEncodings_ne_nil : ∀ e ∈ spaceEncodings, e ≠ [] := by decide

theorem spaceEncodings_isPrefix_free :
    ∀ e₁ ∈ spaceEncodings, ∀ e₂ ∈ spaceEncodings, e₁ <+: e₂ → e₁ = e₂ := by decide

theorem dropSpaceRune_some {s rest : GoString} (h : dropSpaceRune s = some rest) :
    ∃ e ∈ spaceEncodings, s = e ++ rest := by
  unfold dropSpaceRune at h
  cases hf : spaceEncodings.find? (fun e => e.isPrefixOf s) with
  | none => simp [hf] at h
  | some e =>
    rw [hf] at h
    have hmem := List.mem_of_find?_eq_some hf
    have hp := List.find?_some hf
    have hpre : e <+: s := List.isPrefixOf_iff_prefix.1 hp
    obtain ⟨t, ht⟩ := hpre
    refine ⟨e, hmem, ?_⟩
    simp only [Option.map_some', Option.some.injEq] at h
    rw [← h, ← ht]
    simp

theorem dropSpaceRune_none {s : GoString} (h : dropSpaceRune s = none) :
    ∀ e ∈ spaceEncodings, ¬ e <+: s := by
  unfold dropSpaceRune at h
  intro e he hpre
  have hf : spaceEncodings.find? (fun e => e.isPrefixOf s) = none := by
    simpa using h
  rw [List.find?_eq_none] at hf
  exact hf e he (List.isPrefixOf_iff_prefix.2 hpre)

theorem dropLastSpaceRune_some {s rest : GoString} (h : dropLastSpaceRune s = some rest) :
    ∃ e ∈ spaceEncodings, s = rest ++ e := by
  unfold dropLastSpaceRune at h
  cases hf : spaceEncodings.find? (fun e => e.isSuffixOf s) with
  | none => simp [hf] at h
  | some e =>
    rw [hf] at h
    have hmem := List.mem_of_find?_eq_some hf
    have hp := List.find?_some hf
    have hsuf : e <:+ s := List.isSuffixOf_iff_suffix.1 hp
    obtain ⟨t, ht⟩ := hsuf
    refine ⟨e, hmem, ?_⟩
    simp only [Option.map_some', Option.some.injEq] at h
    rw [← h, ← ht]
    simp

theorem trimLeftSpace_spec (n : Nat) : ∀ s : GoString, s.length ≤ n →
    (trimLeftSpace n s = [] ∨ dropSpaceRune (trimLeftSpace n s) = none)
    ∧ ∃ runes : List GoString, (∀ r ∈ runes, r ∈ spaceEncodings)
        ∧ s = runes.flatten ++ trimLeftSpace n s := by
  induction n with
  | zero =>
    intro s hs
    have : s = [] := List.length_eq_zero.1 (Nat.le_zero.1 hs)
    subst this
    exact ⟨Or.inl rfl, [], by simp, by simp [trimLeftSpace]⟩
  | succ n ih =>
    intro s hs
    cases hd : dropSpaceRune s with
    | none =>
      have e : trimLeftSpace (n + 1) s = s := by simp only [trimLeftSpace, hd]
      rw [e]
      exact ⟨Or.inr hd, [], by simp, by simp⟩
    | some rest =>
      obtain ⟨e, he, hse⟩ := dropSpaceRune_some hd
      have hne := spaceEncodings_ne_nil e he
      have hlen : rest.length ≤ n := by
        have h1 : s.length = e.length + rest.length := by rw [hse]; simp
        have h2 : 0 < e.length := List.length_pos.2 hne
        omega
      obtain ⟨h1, runes, hr, hrest⟩ := ih rest hlen
      have e2 : trimLeftSpace (n + 1) s = trimLeftSpace n rest := by
        simp only [trimLeftSpace, hd]
      rw [e2]
      refine ⟨h1, e :: runes, ?_, ?_⟩
      · intro r hr2
        rcases List.mem_cons.1 hr2 with h | h
        · rw [h]; exact he
        · exact hr r h
      · rw [List.flatten_cons, List.append_assoc, ← hrest]
        exact hse

theorem trimRightSpace_spec (n : Nat) : ∀ s : GoString,
    ∃ runes : List GoString, (∀ r ∈ runes, r ∈ spaceEncodings)
      ∧ s = trimRightSpace n s ++ runes.flatten := by
  induction n with
  | zero => intro s; exact ⟨[], by simp, by simp [trimRightSpace]⟩
  | succ n ih =>
    intro s
    cases hd : dropLastSpaceRune s with
    | none =>
      have e : trimRightSpace (n + 1) s = s := by simp only [trimRightSpace, hd]
      rw [e]
      exact ⟨[], by simp, by simp⟩
    | some rest =>
      obtain ⟨e, he, hse⟩ := dropLastSpaceRune_some hd
      obtain ⟨runes, hr, hrest⟩ := ih rest
      have e2 : trimRightSpace (n + 1) s = trimRightSpace n rest := by
        simp only [trimRightSpace, hd]
      rw [e2]
      refine ⟨runes ++ [e], ?_, ?_⟩
      · intro r hr2
        rcases List.mem_append.1 hr2 with h | h
        · exact hr r h
        · rw [List.mem_singleton.1 h]; exact he
      · rw [List.flatten_append, ← List.append_assoc, ← hrest]
        simpa using hse

theorem OnlyWhiteSpace.exists_isPrefix {s : GoString} (h : OnlyWhiteSpace s) (hne : s ≠ []) :
    ∃ e ∈ spaceEncodings, e <+: s := by
  obtain ⟨runes, hr, hs⟩ := h
  cases runes with
  | nil => exact absurd (by simpa using hs) hne
  | cons r rs =>
    refine ⟨r, hr r (List.mem_cons_self _ _), ?_⟩
    rw [hs, List.flatten_cons]
    exact List.prefix_append _ _

theorem OnlyWhiteSpace.of_append_rune {e t : GoString} (he : e ∈ spaceEncodings)
    (h : OnlyWhiteSpace (e ++ t)) : OnlyWhiteSpace t := by
  obtain ⟨runes, hr, hs⟩ := h
  cases runes with
  | nil =>
    have : e = [] := by
      have h2 : e ++ t = [] := by simpa using hs
      exact (List.append_eq_nil.1 h2).1
    exact absurd this (spaceEncodings_ne_nil e he)
  | cons r rs =>
    rw [List.flatten_cons] at hs
    have hrm : r ∈ spaceEncodings := hr r (List.mem_cons_self _ _)
    have h1 : e <+: e ++ t := List.prefix_append _ _
    have h2 : r <+: e ++ t := by rw [hs]; exact List.prefix_append _ _
    have her : e = r := by
      rcases List.prefix_or_prefix_of_prefix h1 h2 with h | h
      · exact spaceEncodings_isPrefix_free e he r hrm h
      · exact (spaceEncodings_isPrefix_free r hrm e he h).symm
    subst her
    exact ⟨rs, fun x hx => hr x (List.mem_cons_of_mem _ hx), List.append_cancel_left hs⟩

theorem OnlyWhiteSpace.of_append_runes (runes : List GoString) :
    (∀ r ∈ runes, r ∈ spaceEncodings) → ∀ t : GoString,
      OnlyWhiteSpace (runes.flatten ++ t) → OnlyWhiteSpace t := by
  induction runes with
  | nil => intro _ t h; simpa using h
  | cons r rs ih =>
    intro hr t h
    rw [List.flatten_cons, List.append_assoc] at h
    exact ih (fun x hx => hr x (List.mem_cons_of_mem _ hx)) t
      (OnlyWhiteSpace.of_append_rune (hr r (List.mem_cons_self _ _)) h)

theorem stringsTrimSpace_eq_nil_iff (s : GoString) :
    stringsTrimSpace s = [] ↔ OnlyWhiteSpace s := by
  obtain ⟨hstop, runes, hr, hs⟩ := trimLeftSpace_spec s.length s (Nat.le_refl _)
  constructor
  · intro h
    unfold stringsTrimSpace at h
    obtain ⟨runes2, hr2, hs2⟩ :=
      trimRightSpace_spec (trimLeftSpace s.length s).length (trimLeftSpace s.length s)
    simp only at h
    rw [h, List.nil_append] at hs2
    have hows : OnlyWhiteSpace (trimLeftSpace s.length s) := ⟨runes2, hr2, hs2⟩
    have hnil : trimLeftSpace s.length s = [] := by
      by_contra hne
      obtain ⟨e, he, hpre⟩ := hows.exists_isPrefix hne
      rcases hstop with h0 | h0
      · exact hne h0
      · exact dropSpaceRune_none h0 e he hpre
    rw [hnil, List.append_nil] at hs
    exact ⟨runes, hr, hs⟩
  · intro h
    have hows : OnlyWhiteSpace (trimLeftSpace s.length s) := by
      apply OnlyWhiteSpace.of_append_runes runes hr
      rw [← hs]; exact h
    have hnil : trimLeftSpace s.length s = [] := by
      by_contra hne
      obtain ⟨e, he, hpre⟩ := hows.exists_isPrefix hne
      rcases hstop with h0 | h0
      · exact hne h0
      · exact dropSpaceRune_none h0 e he hpre
    unfold stringsTrimSpace
    simp only [hnil]
    rfl

theorem stringsSplit_ne_nil (s : GoString) (sep : UInt8) : stringsSplit s sep ≠ [] := by
  cases s with
  | nil => simp [stringsSplit]
  | cons c cs =>
    unfold stringsSplit
    split
    · simp
    · split <;> simp

theorem stringsSplit_eq_singleton_nil (s : GoString) (sep : UInt8) :
    stringsSplit s sep = [[]] ↔ s = [] := by
  constructor
  · intro h
    cases s with
    | nil => rfl
    | cons c cs =>
      exfalso
      unfold stringsSplit at h
      split at h
      · have := stringsSplit_ne_nil cs sep
        simp at h
        exact this h
      · split at h <;> simp at h
  · intro h; subst h; simp [stringsSplit]

/-- The value of `FetchCommits` on a successful run of `git log`. -/
theorem FetchCommits_result (w : World) (cfg : Config) (author intervalKey : GoString) (s : Sys)
    (interval : Interval) (output : GoString)
    (hkey : cfg.Intervals.lookup intervalKey = some interval)
    (hrepo : (isGitRepository w s).1 = true)
    (hrun : w.gitRun (buildGitArgs cfg author interval) = Except.ok output) :
    (FetchCommits w cfg author intervalKey s).1 =
      Except.ok (if stringsTrimSpace output = [] then []
        else stringsSplit (stringsTrimSpace output) 0x0A) := by
  cases hg : isGitRepository w s with
  | mk b s1 =>
    rw [hg] at hrepo
    simp only at hrepo
    subst hrepo
    simp only [FetchCommits, hkey, hg, hrun]
    by_cases ht : stringsTrimSpace output = []
    · have hl : stringsSplit (stringsTrimSpace output) 0x0A = [[]] := by
        rw [ht]; rfl
      have hcond : (stringsSplit (stringsTrimSpace output) 0x0A).length = 1
          ∧ (stringsSplit (stringsTrimSpace output) 0x0A)[0]? = some (go "") := by
        rw [hl]; exact ⟨rfl, rfl⟩
      rw [if_pos hcond, if_pos ht]
    · have hl : stringsSplit (stringsTrimSpace output) 0x0A ≠ [[]] := by
        intro h
        exact ht ((stringsSplit_eq_singleton_nil _ _).1 h)
      have hcond : ¬ ((stringsSplit (stringsTrimSpace output) 0x0A).length = 1
          ∧ (stringsSplit (stringsTrimSpace output) 0x0A)[0]? = some (go "")) := by
        intro ⟨h1, h2⟩
        apply hl
        match hs : stringsSplit (stringsTrimSpace output) 0x0A, h1, h2 with
        | [x], _, h2 =>
          simp at h2
          rw [h2]; rfl
      rw [if_neg hcond, if_neg ht]

/-- C9. For a known interval key, inside a git repository, when `git log` exits successfully
with `output`, `FetchCommits` returns a sequence and no error, and the sequence is empty exactly
when `output` is empty or consists only of white space. -/
theorem FetchCommits_empty_iff_whitespace (w : World) (cfg : Config)
    (author intervalKey : GoString) (s : Sys) (interval : Interval) (output : GoString)
    (hkey : cfg.Intervals.lookup intervalKey = some interval)
    (hrepo : (isGitRepository w s).1 = true)
    (hrun : w.gitRun (buildGitArgs cfg author interval) = Except.ok output) :
    ∃ lines, (FetchCommits w cfg author intervalKey s).1 = Except.ok lines
      ∧ (lines = [] ↔ OnlyWhiteSpace output) := by
  refine ⟨_, FetchCommits_result w cfg author intervalKey s interval output hkey hrepo hrun, ?_⟩
  rw [← stringsTrimSpace_eq_nil_iff]
  by_cases ht : stringsTrimSpace output = []
  · simp [ht]
  · simp only [ht, if_false, iff_false]
    exact stringsSplit_ne_nil _ _

/-- Witness when `git log` prints one line end. -/
theorem FetchCommits_empty_iff_whitespace_witness :
    ∃ lines, (FetchCommits noCommitWorld storedConfig (go "dev@example.com") (go "daily")
        storedSys).1 = Except.ok lines
      ∧ (lines = [] ↔ OnlyWhiteSpace (go "\n")) :=
  FetchCommits_empty_iff_whitespace noCommitWorld storedConfig (go "dev@example.com")
    (go "daily") storedSys
    { Since := go "yesterday.midnight", Until := go "now", Name := go "Daily" } (go "\n")
    rfl rfl rfl

/-! ### C10: the count that `generate` reports -/

/-- C10, evaluated at the failing input. `git log` prints one commit on five lines.
`FetchCommits` returns the five lines, one of which starts with `commit `, and reports
`Found 1 commits`; `generate` then reports `Found 5 commits`, the number of lines. -/
theorem runGenerate_reports_line_count :
    (FetchCommits sampleWorld storedConfig (go "dev@example.com") (go "daily") storedSys).1
      = Except.ok [go "commit 1a2b3c4", go "Author: Dev <dev@example.com>",
          go "Date:   Mon Jan 1 10:00:00 2024 +0000", go "", go "    Fix parser"]
    ∧ countCommitHeaders [go "commit 1a2b3c4", go "Author: Dev <dev@example.com>",
          go "Date:   Mon Jan 1 10:00:00 2024 +0000", go "", go "    Fix parser"] = 1
    ∧ (runGenerate sampleWorld noFlags storedSys).1 = none
    ∧ stdoutOf (runGenerate sampleWorld noFlags storedSys).2.trace
      = [go "Repository: Local repository: /home/dev/project\n",
         go "Found 1 commits from yesterday.midnight to now period\n",
         go "Found 5 commits for daily period\n",
         go "Language: \n",
         go "\nStatus Report (Daily)\n",
         go "==================================================\n",
         go "Hello\n"] := by
  refine ⟨?_, ?_, ?_, ?_⟩
  · rfl
  · rfl
  · rfl
  · rfl

/-- Witness at status 429 with the body `rate limited`. -/
theorem GenerateMessage_non_2xx_witness :
    ∃ err,
      (callAPI rateLimitedWorld (go "key")
          (stringsJoin [go "commit 1a2b3c4"] (go "\n")) storedSys).1 = Except.error err
      ∧ (GenerateMessage rateLimitedWorld (go "key") storedConfig [go "commit 1a2b3c4"]
          (go "report") (go "daily") (go "dev@example.com") storedSys).1 = Except.error err
      ∧ fmtInt 429 <:+: err ∧ go "rate limited" <:+: err
      ∧ ((429 : Int) = 429 → go "rate limited" = go "rate limited" →
          go "429" <:+: err ∧ go "rate limited" <:+: err) :=
  GenerateMessage_non_2xx rateLimitedWorld (go "key") storedConfig [go "commit 1a2b3c4"]
    (go "report") (go "daily") (go "dev@example.com") storedSys
    _ { Since := go "yesterday.midnight", Until := go "now", Name := go "Daily" }
    (stringsJoin [go "commit 1a2b3c4"] (go "\n")) 429 (go "rate limited")
    rfl rfl rfl rfl (by decide)

/-- Witness on a stored configuration (an unknown key, an unknown template, a known template)
and on a first run (an unknown key). -/
theorem setConfig_spec_witness :
    (setConfig sampleWorld (go "colour") (go "blue") storedSys).1
        = some (go "unknown config key: " ++ go "colour")
    ∧ (setConfig sampleWorld (go "default_type") (go "poem") storedSys).1
        = some (go "unknown template: " ++ go "poem")
    ∧ (setConfig sampleWorld (go "default_type") (go "poem") storedSys).2 = storedSys
    ∧ (setConfig sampleWorld (go "default_type") (go "summary") storedSys).2.file
        = ConfigFile.stored (sampleWorld.jsonReadBack
            (storedConfig.withSetting (go "default_type") (go "summary")))
    ∧ (setConfig sampleWorld (go "colour") (go "blue") firstRunSys).1
        = some (go "unknown config key: " ++ go "colour") :=
  ⟨(setConfig_spec sampleWorld storedSys storedSys storedConfig (go "colour") (go "blue")
      rfl rfl rfl).2.1 ⟨by decide, by decide, by decide⟩,
   (setConfig_spec sampleWorld storedSys storedSys storedConfig (go "default_type") (go "poem")
      rfl rfl rfl).2.2.1 ⟨rfl, by decide⟩,
   ((setConfig_spec sampleWorld storedSys storedSys storedConfig (go "default_type") (go "poem")
      rfl rfl rfl).2.2.2.1 (by decide)).1,
   ((setConfig_spec sampleWorld storedSys storedSys storedConfig (go "default_type")
      (go "summary") rfl rfl rfl).2.2.2.2 rfl).1,
   (setConfig_spec sampleWorld firstRunSys
      { file := ConfigFile.stored defaultConfig
        trace := [Event.mkdirAll, Event.mkdirAll, Event.writeFile defaultConfig] }
      defaultConfig (go "colour") (go "blue")
      rfl rfl rfl).2.1 ⟨by decide, by decide, by decide⟩⟩

/-- Witness on the default configuration, which has no author. -/
theorem runGenerate_fails_fast_witness :
    (runGenerate sampleWorld noFlags defaultSys).1 ≠ none
    ∧ (runGenerate sampleWorld noFlags defaultSys).2 = defaultSys
    ∧ ∃ added, (runGenerate sampleWorld noFlags defaultSys).2.trace = defaultSys.trace ++ added
        ∧ ∀ e ∈ added, e.isGitCall = false ∧ e.isNetworkCall = false :=
  runGenerate_fails_fast sampleWorld noFlags defaultSys defaultSys defaultConfig rfl
    (Or.inl ⟨rfl, rfl⟩)

end Gdmc
